import Mathlib

/-!
Verification of the authentication orchestration core of `next-passport`.

The repository implements a Passport-style authentication engine in
TypeScript.  This file shallowly embeds the parts of the source that the
stated properties are about:

* the generic chain runner used by `serializeUser` / `deserializeUser` /
  `transformAuthInfo` (both the callback variant in `src/authenticator.ts`
  lines 305-529 and the promise variant in the same file, lines 694-873);
* the pipeline orchestrator produced by `authenticate(...)`
  (`src/middleware/authenticate.ts`);
* the session-restoration strategy (`SessionStrategy.authenticate`);
* the session manager (`src/sessionmanager.ts` and its async variant);
* the request extension `IncomingMessageExt` (`src/http/request.ts`).

JavaScript values that matter only through their truthiness and a few
distinguished literals (`undefined`, `null`, `false`, `0`, strings,
objects) are modelled by the type `JVal` below.
-/

namespace NextPassport

/-- A JavaScript value, as far as the embedded code inspects one:
`undefined`, `null`, `false`, `true`, numbers, strings and (opaque)
objects.  Only truthiness and equality with the distinguished literals
are ever used by the source. -/
inductive JVal where
  | undef
  | jnull
  | jfalse
  | jtrue
  | num (n : Int)
  | str (s : String)
  | obj (id : Nat)
deriving DecidableEq, Repr

/-- JavaScript truthiness for `JVal` (`undefined`, `null`, `false`, `0`
and `""` are falsy; everything else modelled here is truthy). -/
def truthy : JVal → Bool
  | .undef => false
  | .jnull => false
  | .jfalse => false
  | .jtrue => true
  | .num n => n != 0
  | .str s => s != ""
  | .obj _ => true

/-- The `err` argument a chain handler hands to its callback: absent
(`undefined`/`null`), the sentinel string `'pass'` (used by handlers to
skip), or an actual error. -/
inductive ErrArg where
  | noe
  | passSentinel
  | err (e : String)
deriving DecidableEq, Repr

/-- `if ('pass' === err) { err = undefined; }` — the sentinel
normalisation performed at the head of every `pass` traversal function in
`src/authenticator.ts`. -/
def normErr (e : ErrArg) : ErrArg :=
  if e = .passSentinel then .noe else e

/-- What a callback-style chain handler does when invoked: it either
invokes its continuation once with `(err, value)`, or throws. -/
inductive HandlerAct where
  | call (e : ErrArg) (v : JVal)
  | thrown (e : String)
deriving DecidableEq, Repr

/-- A handler of the callback-variant chains.  The source additionally
dispatches on handler arity (2 vs 3 arguments, the 3-argument form also
receiving `req`); that dispatch only selects how the same handler is
invoked, so a handler is modelled directly by its observable action on
the chain input. -/
def ChainHandler := JVal → HandlerAct

/-- The pair a chain traversal finally delivers to `done(err, value)`. -/
structure DoneRes where
  err : Option String
  val : JVal
deriving DecidableEq, Repr

/-- The terminal test at the head of one `pass(i, err, obj)` step,
common to the three callback-variant chains: normalise the `'pass'`
sentinel, short-circuit on a (truthy) error, then apply the
chain-specific result test `check`. -/
def cbEntry (check : JVal → Option DoneRes) (e : ErrArg) (o : JVal) :
    Option DoneRes :=
  match normErr e with
  | .err m => some ⟨some m, o⟩
  | _ => check o

/-- The recursive `pass(i, err, obj)` traversal shared (textually, as
three near-identical copies) by `serializeUser`, `deserializeUser` and
`transformAuthInfo` in `src/authenticator.ts` (callback variant):
if the entry test yields a result, stop with it; if the handler list is
exhausted, stop with `exhaust`; otherwise invoke the next handler on the
original `input`, recursing on whatever it hands its callback, and
turning a thrown exception into `done(e)`. -/
def cbChainLoop (check : JVal → Option DoneRes) (exhaust : DoneRes)
    (input : JVal) : List ChainHandler → ErrArg → JVal → DoneRes
  | [], e, o => (cbEntry check e o).getD exhaust
  | layer :: rest, e, o =>
    match cbEntry check e o with
    | some r => r
    | none =>
      match layer input with
      | .call e2 o2 => cbChainLoop check exhaust input rest e2 o2
      | .thrown m => ⟨some m, .undef⟩

/-- `'Failed to serialize user into session'` -/
def serMsg : String := "Failed to serialize user into session"

/-- `'Failed to deserialize user out of session'` -/
def deserMsg : String := "Failed to deserialize user out of session"

/-- Result test of the serializer chain (`src/authenticator.ts` 332):
`if (err || obj || obj === 0) { return done!(err, obj); }` — a truthy
object, or the literal `0`, is a terminal result. -/
def serCheck (o : JVal) : Option DoneRes :=
  if truthy o ∨ o = .num 0 then some ⟨none, o⟩ else none

/-- Result test of the deserializer chain (`src/authenticator.ts`
400-407): a truthy user is a result; `null`/`false` mean "user no longer
exists" and deliver `done(null, false)`. -/
def deserCheck (u : JVal) : Option DoneRes :=
  if truthy u then some ⟨none, u⟩
  else if u = .jnull ∨ u = .jfalse then some ⟨none, .jfalse⟩
  else none

/-- Result test of the info-transformer chain (`src/authenticator.ts`
497): a truthy transformed info is a result. -/
def transformCheck (t : JVal) : Option DoneRes :=
  if truthy t then some ⟨none, t⟩ else none

/-- `serializeUser(user, done)` run over a serializer stack
(`src/authenticator.ts` 305-358, the chain-traversal half). -/
def serializeUserRun (stack : List ChainHandler) (user : JVal) : DoneRes :=
  cbChainLoop serCheck ⟨some serMsg, .undef⟩ user stack .noe (JVal.undef)

/-- `deserializeUser(obj, done)` run over a deserializer stack
(`src/authenticator.ts` 373-431, the chain-traversal half). -/
def deserializeUserRun (stack : List ChainHandler) (obj : JVal) : DoneRes :=
  cbChainLoop deserCheck ⟨some deserMsg, .undef⟩ obj stack .noe (JVal.undef)

/-- `transformAuthInfo(info, done)` run over a transformer stack
(`src/authenticator.ts` 471-529): on exhaustion the *untransformed*
`info` is delivered with no error.  An arity-1 synchronous transformer
`f` of the source corresponds to the handler `fun v => .call .noe (f v)`
(the source wraps it as `transformed(null, layer(info))`). -/
def transformAuthInfoRun (stack : List ChainHandler) (info : JVal) : DoneRes :=
  cbChainLoop transformCheck ⟨none, info⟩ info stack .noe (JVal.undef)

/-- How a promise-variant handler settles: resolve with a value, or
reject (rejecting with the string `'pass'` skips). -/
inductive PromiseOut where
  | resolved (v : JVal)
  | rejected (e : ErrArg)
deriving DecidableEq, Repr

/-- A handler of the promise-variant chains (second `Authenticator`
class in `src/authenticator.ts`). -/
def AsyncHandler := JVal → PromiseOut

/-- Entry test of one promise-variant `pass(i, err, v)` step: normalise
`'pass'`, reject on a (truthy) error — rejection carries no value — then
apply the chain-specific result test. -/
def asyncEntry (check : JVal → Option DoneRes) (e : ErrArg) (o : JVal) :
    Option DoneRes :=
  match normErr e with
  | .err m => some ⟨some m, .undef⟩
  | _ => check o

/-- The recursive `pass` traversal of the promise-variant chains
(`src/authenticator.ts` 694-731, 746-790, 830-873):
`layer(input).then(v => pass(i+1, null, v), e => pass(i+1, e))`. -/
def asyncChainLoop (check : JVal → Option DoneRes) (exhaust : DoneRes)
    (input : JVal) : List AsyncHandler → ErrArg → JVal → DoneRes
  | [], e, o => (asyncEntry check e o).getD exhaust
  | layer :: rest, e, o =>
    match asyncEntry check e o with
    | some r => r
    | none =>
      match layer input with
      | .resolved v => asyncChainLoop check exhaust input rest .noe v
      | .rejected e2 => asyncChainLoop check exhaust input rest e2 (JVal.undef)

/-- Promise-variant `serializeUser` (`src/authenticator.ts` 694-731). -/
def serializeUserRunAsync (stack : List AsyncHandler) (user : JVal) : DoneRes :=
  asyncChainLoop serCheck ⟨some serMsg, .undef⟩ user stack .noe (JVal.undef)

/-- Promise-variant `deserializeUser` (`src/authenticator.ts` 746-790). -/
def deserializeUserRunAsync (stack : List AsyncHandler) (obj : JVal) : DoneRes :=
  asyncChainLoop deserCheck ⟨some deserMsg, .undef⟩ obj stack .noe (JVal.undef)

/-- Promise-variant `transformAuthInfo` (`src/authenticator.ts`
830-873). -/
def transformAuthInfoRunAsync (stack : List AsyncHandler) (info : JVal) :
    DoneRes :=
  asyncChainLoop transformCheck ⟨none, info⟩ info stack .noe (JVal.undef)

/-- A callback-variant handler that always skips: it invokes its
callback with the `'pass'` sentinel and no value. -/
def SkipsCB (h : ChainHandler) : Prop :=
  ∀ v, h v = .call .passSentinel (JVal.undef)

/-- A promise-variant handler that always skips: it rejects with the
string `'pass'`. -/
def SkipsAsync (h : AsyncHandler) : Prop :=
  ∀ v, h v = .rejected .passSentinel

/-- The concrete always-skipping callback handler. -/
def skipCB : ChainHandler := fun _ => .call .passSentinel (JVal.undef)

/-- The concrete always-skipping promise handler. -/
def skipAsync : AsyncHandler := fun _ => .rejected .passSentinel

section ChainLemmas

variable {check : JVal → Option DoneRes} {ex : DoneRes} {inp : JVal}

lemma cbChainLoop_entry_some {e : ErrArg} {o : JVal} {r : DoneRes}
    (hE : cbEntry check e o = some r) :
    ∀ stack, cbChainLoop check ex inp stack e o = r := by
  intro stack
  cases stack <;> simp [cbChainLoop, hE]

lemma cbChainLoop_entry_none {e e' : ErrArg} {o o' : JVal}
    (h1 : cbEntry check e o = none) (h2 : cbEntry check e' o' = none) :
    ∀ stack, cbChainLoop check ex inp stack e o
      = cbChainLoop check ex inp stack e' o' := by
  intro stack
  cases stack <;> simp [cbChainLoop, h1, h2]

/-- A skipping handler anywhere in a callback-variant chain is
behaviourally absent. -/
lemma cbChainLoop_skip_mid (hcont : check .undef = none)
    {h : ChainHandler} (hs : SkipsCB h) (post : List ChainHandler) :
    ∀ (pre : List ChainHandler) (e : ErrArg) (o : JVal),
      cbChainLoop check ex inp (pre ++ h :: post) e o
        = cbChainLoop check ex inp (pre ++ post) e o := by
  intro pre
  induction pre with
  | nil =>
    intro e o
    cases hE : cbEntry check e o with
    | some r =>
      rw [cbChainLoop_entry_some hE, cbChainLoop_entry_some hE]
    | none =>
      have hskip : cbEntry check ErrArg.passSentinel JVal.undef = none := by
        simp [cbEntry, normErr, hcont]
      calc cbChainLoop check ex inp (h :: post) e o
          = cbChainLoop check ex inp post .passSentinel .undef := by
            simp [cbChainLoop, hE, hs inp]
        _ = cbChainLoop check ex inp post e o :=
            cbChainLoop_entry_none hskip hE post
  | cons p ps ih =>
    intro e o
    cases hE : cbEntry check e o with
    | some r =>
      rw [cbChainLoop_entry_some hE, cbChainLoop_entry_some hE]
    | none =>
      simp only [List.cons_append, cbChainLoop, hE]
      cases p inp with
      | call e2 o2 => exact ih e2 o2
      | thrown m => rfl

/-- When every handler in the stack skips, the callback-variant chain
reaches its exhaustion outcome. -/
lemma cbChainLoop_all_skip (hcont : check .undef = none) :
    ∀ (stack : List ChainHandler), (∀ h ∈ stack, SkipsCB h) →
      ∀ (e : ErrArg) (o : JVal), cbEntry check e o = none →
        cbChainLoop check ex inp stack e o = ex := by
  intro stack
  induction stack with
  | nil =>
    intro _ e o hE
    simp [cbChainLoop, hE]
  | cons p ps ih =>
    intro hall e o hE
    have hp : SkipsCB p := hall p (by simp)
    have hskip : cbEntry check ErrArg.passSentinel JVal.undef = none := by
      simp [cbEntry, normErr, hcont]
    simp only [cbChainLoop, hE, hp inp]
    exact ih (fun h hh => hall h (by simp [hh])) _ _ hskip

/-- An all-skipping leading segment of a callback-variant chain is
traversed without effect. -/
lemma cbChainLoop_skipAll_pre (hcont : check .undef = none) :
    ∀ (pre : List ChainHandler), (∀ g ∈ pre, SkipsCB g) →
      ∀ (rest : List ChainHandler),
        cbChainLoop check ex inp (pre ++ rest) .noe (JVal.undef)
          = cbChainLoop check ex inp rest .noe .undef := by
  intro pre
  induction pre with
  | nil =>
    intro _ rest
    rfl
  | cons p ps ih =>
    intro hpre rest
    have hp : SkipsCB p := hpre p (by simp)
    have hE : cbEntry check ErrArg.noe JVal.undef = none := by
      simp [cbEntry, normErr, hcont]
    have hskip : cbEntry check ErrArg.passSentinel JVal.undef = none := by
      simp [cbEntry, normErr, hcont]
    calc cbChainLoop check ex inp ((p :: ps) ++ rest) .noe (JVal.undef)
        = cbChainLoop check ex inp (ps ++ rest) .passSentinel .undef := by
          simp only [List.cons_append, cbChainLoop, hE, hp inp, List.append_eq]
      _ = cbChainLoop check ex inp (ps ++ rest) .noe .undef :=
          cbChainLoop_entry_none hskip hE _
      _ = cbChainLoop check ex inp rest .noe .undef :=
          ih (fun g hg => hpre g (by simp [hg])) rest

lemma asyncChainLoop_entry_some {e : ErrArg} {o : JVal} {r : DoneRes}
    (hE : asyncEntry check e o = some r) :
    ∀ stack, asyncChainLoop check ex inp stack e o = r := by
  intro stack
  cases stack <;> simp [asyncChainLoop, hE]

lemma asyncChainLoop_entry_none {e e' : ErrArg} {o o' : JVal}
    (h1 : asyncEntry check e o = none) (h2 : asyncEntry check e' o' = none) :
    ∀ stack, asyncChainLoop check ex inp stack e o
      = asyncChainLoop check ex inp stack e' o' := by
  intro stack
  cases stack <;> simp [asyncChainLoop, h1, h2]

/-- A skipping handler anywhere in a promise-variant chain is
behaviourally absent. -/
lemma asyncChainLoop_skip_mid (hcont : check .undef = none)
    {h : AsyncHandler} (hs : SkipsAsync h) (post : List AsyncHandler) :
    ∀ (pre : List AsyncHandler) (e : ErrArg) (o : JVal),
      asyncChainLoop check ex inp (pre ++ h :: post) e o
        = asyncChainLoop check ex inp (pre ++ post) e o := by
  intro pre
  induction pre with
  | nil =>
    intro e o
    cases hE : asyncEntry check e o with
    | some r =>
      rw [asyncChainLoop_entry_some hE, asyncChainLoop_entry_some hE]
    | none =>
      have hskip : asyncEntry check ErrArg.passSentinel JVal.undef = none := by
        simp [asyncEntry, normErr, hcont]
      calc asyncChainLoop check ex inp (h :: post) e o
          = asyncChainLoop check ex inp post .passSentinel .undef := by
            simp [asyncChainLoop, hE, hs inp]
        _ = asyncChainLoop check ex inp post e o :=
            asyncChainLoop_entry_none hskip hE post
  | cons p ps ih =>
    intro e o
    cases hE : asyncEntry check e o with
    | some r =>
      rw [asyncChainLoop_entry_some hE, asyncChainLoop_entry_some hE]
    | none =>
      simp only [List.cons_append, asyncChainLoop, hE]
      cases p inp with
      | resolved v => exact ih .noe v
      | rejected e2 => exact ih e2 (JVal.undef)

/-- When every handler in the stack skips, the promise-variant chain
reaches its exhaustion outcome. -/
lemma asyncChainLoop_all_skip (hcont : check .undef = none) :
    ∀ (stack : List AsyncHandler), (∀ h ∈ stack, SkipsAsync h) →
      ∀ (e : ErrArg) (o : JVal), asyncEntry check e o = none →
        asyncChainLoop check ex inp stack e o = ex := by
  intro stack
  induction stack with
  | nil =>
    intro _ e o hE
    simp [asyncChainLoop, hE]
  | cons p ps ih =>
    intro hall e o hE
    have hp : SkipsAsync p := hall p (by simp)
    have hskip : asyncEntry check ErrArg.passSentinel JVal.undef = none := by
      simp [asyncEntry, normErr, hcont]
    simp only [asyncChainLoop, hE, hp inp]
    exact ih (fun h hh => hall h (by simp [hh])) _ _ hskip

/-- An all-skipping leading segment of a promise-variant chain is
traversed without effect. -/
lemma asyncChainLoop_skipAll_pre (hcont : check .undef = none) :
    ∀ (pre : List AsyncHandler), (∀ g ∈ pre, SkipsAsync g) →
      ∀ (rest : List AsyncHandler),
        asyncChainLoop check ex inp (pre ++ rest) .noe (JVal.undef)
          = asyncChainLoop check ex inp rest .noe .undef := by
  intro pre
  induction pre with
  | nil =>
    intro _ rest
    rfl
  | cons p ps ih =>
    intro hpre rest
    have hp : SkipsAsync p := hpre p (by simp)
    have hE : asyncEntry check ErrArg.noe JVal.undef = none := by
      simp [asyncEntry, normErr, hcont]
    have hskip : asyncEntry check ErrArg.passSentinel JVal.undef = none := by
      simp [asyncEntry, normErr, hcont]
    calc asyncChainLoop check ex inp ((p :: ps) ++ rest) .noe (JVal.undef)
        = asyncChainLoop check ex inp (ps ++ rest) .passSentinel .undef := by
          simp only [List.cons_append, asyncChainLoop, hE, hp inp, List.append_eq]
      _ = asyncChainLoop check ex inp (ps ++ rest) .noe .undef :=
          asyncChainLoop_entry_none hskip hE _
      _ = asyncChainLoop check ex inp rest .noe .undef :=
          ih (fun g hg => hpre g (by simp [hg])) rest

end ChainLemmas

/-! ## Pipeline orchestrator (`src/middleware/authenticate.ts`) -/

/-- A `Failure` record (`src/interfaces/strategy.ts`):
`{challenge?: string, status?: number}`, one per strategy that signals
`fail`. -/
structure Failure where
  challenge : Option String
  status : Option Nat
deriving DecidableEq, Repr

/-- The argument forms of `strategy.fail(challengeOrStatus, status?)`:
a lone number, or a string challenge with an optional status. -/
inductive FailSig where
  | st (n : Nat)
  | ch (c : String) (status : Option Nat)
deriving DecidableEq, Repr

/-- Overload resolution in `strategy.fail`
(`src/middleware/authenticate.ts` 410-425): a number argument is the
status (challenge stays undefined); a string argument is the challenge,
with the second argument as status. -/
def mkFailure : FailSig → Failure
  | .st n => ⟨none, some n⟩
  | .ch c s => ⟨some c, s⟩

/-- The observable behaviour of one strategy's `authenticate` for the
current request: which of the five bound action functions it invokes,
with which arguments. -/
inductive StrategyAction where
  | success (user : JVal) (info : JVal)
  | fail (f : FailSig)
  | redirect (url : String) (status : Option Nat)
  | pass
  | error (e : String)
deriving DecidableEq, Repr

/-- One entry of the specifier list handed to `authenticate(...)`: a
strategy instance used directly, or a name resolved against the
registry. -/
inductive StrategySpec where
  | inst (s : StrategyAction)
  | byName (n : String)
deriving DecidableEq, Repr

/-- A `boolean | string` option
(`successFlash`/`successMessage`/`failureFlash`/`failureMessage`). -/
inductive FlagOrStr where
  | off
  | on
  | str (s : String)
deriving DecidableEq, Repr

/-- JavaScript truthiness of a `boolean | string` option (the empty
string is falsy). -/
def FlagOrStr.isTruthy : FlagOrStr → Bool
  | .off => false
  | .on => true
  | .str s => s != ""

/-- `AuthenticateOptions` (`src/middleware/authenticate.ts` 17-72),
restricted to the fields the orchestrator reads. -/
structure AuthOptions where
  session : Option Bool := none
  successRedirect : Option String := none
  successMessage : FlagOrStr := .off
  successFlash : FlagOrStr := .off
  failureRedirect : Option String := none
  failureMessage : FlagOrStr := .off
  failureFlash : FlagOrStr := .off
  assignProperty : Option String := none
  failWithError : Bool := false
  authInfo : Option Bool := none
  successReturnToOrRedirect : Option String := none
deriving DecidableEq, Repr

/-- The session fields the orchestrator touches
(`req.session.messages`, `req.session.returnTo`).  The model assumes a
session object is present on the request (the middleware requires
session support for the message options). -/
structure SessionState where
  messages : List String := []
  returnTo : Option String := none
deriving DecidableEq, Repr

/-- The request-state the orchestrator mutates: the canonical current
user slot `req[property]`, an alternate `assignProperty` slot,
`req.authInfo`, and the session. -/
structure ReqState where
  userSlot : JVal := (JVal.undef)
  assigned : Option (String × JVal) := none
  authInfo : Option JVal := none
  session : SessionState := {}
deriving DecidableEq, Repr

/-- The terminal outcome of one run of the per-request handler: which
callback / response-emission / `next` action concludes the request. -/
inductive Outcome where
  | cbSuccess (user info : JVal)
  | cbFailSingle (challenge : Option String) (status : Option Nat)
  | cbFail (challenges : List (Option String)) (statuses : List (Option Nat))
  | cbError (e : String)
  | nextOk
  | nextError (e : String)
  | resRedirect (url : String)
  | strategyRedirect (location : String) (status : Nat) (contentLength : String)
  | failResponse (statusCode : Nat) (wwwAuthenticate : List String)
  | authErrorNext (statusCode : Nat) (wwwAuthenticate : List String)
      (errStatus : Nat)
  | jsCrash
deriving DecidableEq, Repr

/-- Result of running the per-request handler: outcome, the failure
accumulator, the number of strategies whose `authenticate` was invoked,
and the final request state. -/
structure PipeResult where
  outcome : Outcome
  failures : List Failure
  invoked : Nat
  req : ReqState
deriving DecidableEq, Repr

/-- The per-request environment: the strategy registry, the outcome of
session persistence for a given user (the session-manager collaborator
behind `req.logIn`), the registered info transformers, and the incoming
request state. -/
structure PipelineEnv where
  registry : List (String × StrategyAction)
  login : JVal → Option String
  infoTransformers : List ChainHandler
  req : ReqState

/-- `info ??= ''` (`src/middleware/authenticate.ts` 331). -/
def nullishInfo (info : JVal) : JVal :=
  if info = .undef ∨ info = .jnull then .str "" else info

/-- `req.session.messages ??= []; req.session.messages.push(msg)`. -/
def pushMessage (req : ReqState) (msg : String) : ReqState :=
  { req with session :=
      { req.session with messages := req.session.messages ++ [msg] } }

/-- The `successMessage` / `failureMessage` handling: when the option is
truthy, the message is the option itself when it is a string, otherwise
the supplied value — pushed only when that is a string
(`src/middleware/authenticate.ts` 217-226 and 340-349).  The
corresponding `successFlash`/`failureFlash` branches call `req.flash`,
which delegates to `SessionManager.setFlash` — a no-op in this source
(`src/sessionmanager.ts` 136-138) — so they do not appear in the
model. -/
def messageStep (fm : FlagOrStr) (req : ReqState) (v : JVal) : ReqState :=
  if fm.isTruthy then
    match fm with
    | .str s => pushMessage req s
    | _ =>
      match v with
      | .str s => pushMessage req s
      | _ => req
  else req

/-- `IncomingMessageExt.logIn` (`src/http/request.ts` 27-53): set
`req[property] = user` first; when sessions are enabled
(`options.session ?? true`) and a session manager is present, delegate
to `SessionManager.logIn` (outcome `smResult`); on a persistence error
the slot is reset to `null` before the error is delivered to `done`.
The second component is the argument `done` receives. -/
def reqLogIn (hasSessionManager : Bool) (smResult : Option String)
    (sessionOpt : Option Bool) (req : ReqState) (user : JVal) :
    ReqState × Option String :=
  let session := sessionOpt.getD true
  let req1 := { req with userSlot := user }
  if session ∧ hasSessionManager then
    match smResult with
    | some e => ({ req1 with userSlot := .jnull }, some e)
    | none => (req1, none)
  else (req1, none)

/-- `req.isAuthenticated()` (`src/http/request.ts` 82-85):
`this[property] ? true : false`. -/
def isAuthenticatedReq (req : ReqState) : Bool :=
  truthy req.userSlot

/-- The `complete()` closure of the success action
(`src/middleware/authenticate.ts` 371-384): prefer a stored
`session.returnTo` (deleting it) over `successReturnToOrRedirect`, then
`successRedirect`, else continue to the next handler. -/
def successComplete (opts : AuthOptions) (req : ReqState) :
    Outcome × ReqState :=
  match opts.successReturnToOrRedirect with
  | some u =>
    match req.session.returnTo with
    | some rt =>
      (.resRedirect rt,
        { req with session := { req.session with returnTo := none } })
    | none => (.resRedirect u, req)
  | none =>
    match opts.successRedirect with
    | some u => (.resRedirect u, req)
    | none => (.nextOk, req)

/-- `strategy.success` (`src/middleware/authenticate.ts` 326-398): an
application callback wins outright; otherwise flash/message side
effects, then either the `assignProperty` path (no log-in, no redirect)
or session log-in via `req.logIn` followed by the info transform and
`complete()`. -/
def runSuccessAction (env : PipelineEnv) (opts : AuthOptions) (hasCb : Bool)
    (req : ReqState) (user info0 : JVal) : Outcome × ReqState :=
  if hasCb then (.cbSuccess user info0, req)
  else
    let info := nullishInfo info0
    let req := messageStep opts.successMessage req info
    match opts.assignProperty with
    | some p =>
      let req := { req with assigned := some (p, user) }
      if opts.authInfo ≠ some false then
        let t := transformAuthInfoRun env.infoTransformers info
        match t.err with
        | some m => (.nextError m, req)
        | none => (.nextOk, { req with authInfo := some t.val })
      else (.nextOk, req)
    | none =>
      let lr := reqLogIn true (env.login user) opts.session req user
      match lr.2 with
      | some e => (.nextError e, lr.1)
      | none =>
        if opts.authInfo ≠ some false then
          let t := transformAuthInfoRun env.infoTransformers info
          match t.err with
          | some m => (.nextError m, lr.1)
          | none => successComplete opts { lr.1 with authInfo := some t.val }
        else successComplete opts lr.1

/-- JavaScript truthiness of an optional status number (`undefined` and
`0` are falsy). -/
def statusTruthy : Option Nat → Bool
  | some n => n != 0
  | none => false

/-- The `rstatus ||= status` fold over the failures
(`src/middleware/authenticate.ts` 239-246). -/
def rstatusFold (fs : List Failure) : Option Nat :=
  fs.foldl (fun r f => if statusTruthy r then r else f.status) none

/-- The string challenges of the failures, in arrival order
(`src/middleware/authenticate.ts` 243-245). -/
def challengeList (fs : List Failure) : List String :=
  fs.filterMap Failure.challenge

/-- `allFailed()` (`src/middleware/authenticate.ts` 183-258).  With a
callback: single challenge/status when the original specifier was not an
array (`failures[0]` with an empty accumulator is a TypeError), arrays
otherwise.  Without: failure flash (a no-op, see `messageStep`) /
message from the first failure, `failureRedirect`, else the aggregate
status (`rstatus ?? 401`) with the `WWW-Authenticate` header set when
the status is 401 and challenges exist, raised as an
`AuthenticationError` under `failWithError`. -/
def allFailedRun (opts : AuthOptions) (hasCb multi : Bool)
    (failures : List Failure) (invoked : Nat) (req : ReqState) : PipeResult :=
  if hasCb then
    if !multi then
      match failures.head? with
      | some f => ⟨.cbFailSingle f.challenge f.status, failures, invoked, req⟩
      | none => ⟨.jsCrash, failures, invoked, req⟩
    else
      ⟨.cbFail (failures.map Failure.challenge) (failures.map Failure.status),
        failures, invoked, req⟩
  else
    let failure := failures.head?.getD ⟨none, none⟩
    let req := messageStep opts.failureMessage req
      (match failure.challenge with
       | some s => .str s
       | none => .undef)
    match opts.failureRedirect with
    | some url => ⟨.resRedirect url, failures, invoked, req⟩
    | none =>
      let rchallenge := challengeList failures
      let rstatus := rstatusFold failures
      let statusCode := rstatus.getD 401
      let wwwAuth :=
        if statusCode = 401 ∧ rchallenge ≠ [] then rchallenge else []
      if opts.failWithError then
        ⟨.authErrorNext statusCode wwwAuth (rstatus.getD 401),
          failures, invoked, req⟩
      else
        ⟨.failResponse statusCode wwwAuth, failures, invoked, req⟩

/-- Resolution of one specifier entry
(`src/middleware/authenticate.ts` 272-285): a strategy instance is used
directly; a name is looked up in the registry, an unknown name being a
fatal configuration error. -/
def resolveSpec (registry : List (String × StrategyAction)) :
    StrategySpec → Except String StrategyAction
  | .inst s => .ok s
  | .byName n =>
    match registry.lookup n with
    | some s => .ok s
    | none =>
      .error ("Unknown authentication strategy \"" ++ n ++ "\"")

/-- `attempt(i)` (`src/middleware/authenticate.ts` 262-311): past the
end of the list, authentication has failed (`allFailed`); otherwise
resolve the entry, bind the action functions, and invoke
`strategy.authenticate` — `fail` pushes a `Failure` and re-invokes
`attempt(i+1)`, `redirect` emits `Location`/status (`status || 302`)
with `Content-Length: 0`, `pass` calls `next()`, `error` the callback or
`next(err)`. -/
def attempt (env : PipelineEnv) (opts : AuthOptions) (hasCb multi : Bool) :
    List StrategySpec → List Failure → Nat → ReqState → PipeResult
  | [], failures, invoked, req =>
    allFailedRun opts hasCb multi failures invoked req
  | layer :: rest, failures, invoked, req =>
    match resolveSpec env.registry layer with
    | .error m => ⟨.nextError m, failures, invoked, req⟩
    | .ok act =>
      match act with
      | .success user info =>
        let s := runSuccessAction env opts hasCb req user info
        ⟨s.1, failures, invoked + 1, s.2⟩
      | .fail f =>
        attempt env opts hasCb multi rest (failures ++ [mkFailure f])
          (invoked + 1) req
      | .redirect url st =>
        ⟨.strategyRedirect url
            (match st with
             | some n => if n ≠ 0 then n else 302
             | none => 302) "0",
          failures, invoked + 1, req⟩
      | .pass => ⟨.nextOk, failures, invoked + 1, req⟩
      | .error e =>
        ⟨if hasCb then .cbError e else .nextError e,
          failures, invoked + 1, req⟩

/-- The per-request handler returned by `authenticate(...)`: run
`attempt(0)` with an empty failure accumulator. -/
def runPipeline (env : PipelineEnv) (opts : AuthOptions) (hasCb multi : Bool)
    (specs : List StrategySpec) : PipeResult :=
  attempt env opts hasCb multi specs [] 0 env.req

/-- The `authenticate(...)` factory's specifier normalisation
(`src/middleware/authenticate.ts` 152-167): a non-array specifier is
wrapped in a singleton list and `multi` is `false`. -/
def authenticateMiddleware (env : PipelineEnv) (opts : AuthOptions)
    (hasCb : Bool) : StrategySpec ⊕ List StrategySpec → PipeResult
  | .inl single => runPipeline env opts hasCb false [single]
  | .inr lst => runPipeline env opts hasCb true lst

/-- The outcomes the success action can conclude with: callback
invocation, or (after log-in) redirect/next. -/
def isSuccessOutcome : Outcome → Bool
  | .cbSuccess _ _ => true
  | .nextOk => true
  | .resRedirect _ => true
  | _ => false

/-- C5: chain exhaustion asymmetry.  Running `serializeUser`
(resp. `deserializeUser`) on a value when every registered handler skips,
or no handler is registered, yields the error `'Failed to serialize user
into session'` (resp. `'Failed to deserialize user out of session'`);
running `transformAuthInfo` on a value in the same situation is not an
error and returns the original info unchanged.  Proved for both the
callback variant and the promise variant of the chains. -/
theorem C5_exhaustion_asymmetry
    (sstack dstack tstack : List ChainHandler)
    (sa da ta : List AsyncHandler)
    (hs : ∀ h ∈ sstack, SkipsCB h) (hd : ∀ h ∈ dstack, SkipsCB h)
    (ht : ∀ h ∈ tstack, SkipsCB h)
    (hsa : ∀ h ∈ sa, SkipsAsync h) (hda : ∀ h ∈ da, SkipsAsync h)
    (hta : ∀ h ∈ ta, SkipsAsync h)
    (user obj info : JVal) :
    serializeUserRun sstack user = ⟨some serMsg, .undef⟩ ∧
    deserializeUserRun dstack obj = ⟨some deserMsg, .undef⟩ ∧
    transformAuthInfoRun tstack info = ⟨none, info⟩ ∧
    serializeUserRunAsync sa user = ⟨some serMsg, .undef⟩ ∧
    deserializeUserRunAsync da obj = ⟨some deserMsg, .undef⟩ ∧
    transformAuthInfoRunAsync ta info = ⟨none, info⟩ := by
  refine ⟨?_, ?_, ?_, ?_, ?_, ?_⟩
  · exact cbChainLoop_all_skip rfl sstack hs .noe .undef rfl
  · exact cbChainLoop_all_skip rfl dstack hd .noe .undef rfl
  · exact cbChainLoop_all_skip rfl tstack ht .noe .undef rfl
  · exact asyncChainLoop_all_skip rfl sa hsa .noe .undef rfl
  · exact asyncChainLoop_all_skip rfl da hda .noe .undef rfl
  · exact asyncChainLoop_all_skip rfl ta hta .noe .undef rfl

/-- Witness for C5 at a concrete input: one all-skipping handler in each
chain, input the number `42`. -/
theorem C5_exhaustion_asymmetry_witness :
    serializeUserRun [skipCB] (.num 42) = ⟨some serMsg, .undef⟩ ∧
    deserializeUserRun [skipCB] (.num 42) = ⟨some deserMsg, .undef⟩ ∧
    transformAuthInfoRun [skipCB] (.num 42) = ⟨none, .num 42⟩ ∧
    serializeUserRunAsync [skipAsync] (.num 42) = ⟨some serMsg, .undef⟩ ∧
    deserializeUserRunAsync [skipAsync] (.num 42) = ⟨some deserMsg, .undef⟩ ∧
    transformAuthInfoRunAsync [skipAsync] (.num 42) = ⟨none, .num 42⟩ := by
  have hcb : ∀ h ∈ ([skipCB] : List ChainHandler), SkipsCB h := by
    intro h hh
    rw [List.mem_singleton] at hh
    subst hh
    intro v
    rfl
  have has : ∀ h ∈ ([skipAsync] : List AsyncHandler), SkipsAsync h := by
    intro h hh
    rw [List.mem_singleton] at hh
    subst hh
    intro v
    rfl
  exact C5_exhaustion_asymmetry [skipCB] [skipCB] [skipCB]
    [skipAsync] [skipAsync] [skipAsync] hcb hcb hcb has has has
    (.num 42) (.num 42) (.num 42)

/-- C6: in the serializer chain, a handler that yields the
falsy-but-defined result `0` terminates the chain successfully with that
value (it is not treated as "no result"): the chain does not advance
past it — whatever handlers follow — and `serializeUser` returns `0`.
Proved for both variants, with any all-skipping prefix before the
handler. -/
theorem C6_serialize_zero_is_result
    (pre post : List ChainHandler) (h : ChainHandler)
    (preA postA : List AsyncHandler) (hA : AsyncHandler) (user : JVal)
    (hpre : ∀ g ∈ pre, SkipsCB g) (hz : h user = .call .noe (.num 0))
    (hpreA : ∀ g ∈ preA, SkipsAsync g) (hzA : hA user = .resolved (.num 0)) :
    serializeUserRun (pre ++ h :: post) user = ⟨none, .num 0⟩ ∧
    serializeUserRunAsync (preA ++ hA :: postA) user = ⟨none, .num 0⟩ := by
  constructor
  · have hE : cbEntry serCheck ErrArg.noe JVal.undef = none := rfl
    have hE0 : cbEntry serCheck ErrArg.noe (JVal.num 0)
        = some ⟨none, .num 0⟩ := rfl
    calc serializeUserRun (pre ++ h :: post) user
        = cbChainLoop serCheck ⟨some serMsg, .undef⟩ user (h :: post)
            .noe .undef := cbChainLoop_skipAll_pre rfl pre hpre _
      _ = cbChainLoop serCheck ⟨some serMsg, .undef⟩ user post
            .noe (.num 0) := by
          simp only [cbChainLoop, hE, hz]
      _ = ⟨none, .num 0⟩ := cbChainLoop_entry_some hE0 post
  · have hE : asyncEntry serCheck ErrArg.noe JVal.undef = none := rfl
    have hE0 : asyncEntry serCheck ErrArg.noe (JVal.num 0)
        = some ⟨none, .num 0⟩ := rfl
    calc serializeUserRunAsync (preA ++ hA :: postA) user
        = asyncChainLoop serCheck ⟨some serMsg, .undef⟩ user (hA :: postA)
            .noe .undef := asyncChainLoop_skipAll_pre rfl preA hpreA _
      _ = asyncChainLoop serCheck ⟨some serMsg, .undef⟩ user postA
            .noe (.num 0) := by
          simp only [asyncChainLoop, hE, hzA]
      _ = ⟨none, .num 0⟩ := asyncChainLoop_entry_some hE0 postA

/-- Witness for C6 at a concrete input: a skipping handler, then the
handler yielding `0`, then a further (never reached) handler. -/
theorem C6_serialize_zero_is_result_witness :
    serializeUserRun [skipCB, fun _ => .call .noe (.num 0),
      fun _ => .call .noe (.str "later")] (.obj 1) = ⟨none, .num 0⟩ ∧
    serializeUserRunAsync [skipAsync, fun _ => .resolved (.num 0),
      fun _ => .resolved (.str "later")] (.obj 1) = ⟨none, .num 0⟩ := by
  have hpre : ∀ g ∈ ([skipCB] : List ChainHandler), SkipsCB g := by
    intro g hg
    rw [List.mem_singleton] at hg
    subst hg
    intro v
    rfl
  have hpreA : ∀ g ∈ ([skipAsync] : List AsyncHandler), SkipsAsync g := by
    intro g hg
    rw [List.mem_singleton] at hg
    subst hg
    intro v
    rfl
  exact C6_serialize_zero_is_result [skipCB]
    [fun _ => .call .noe (.str "later")] (fun _ => .call .noe (.num 0))
    [skipAsync] [fun _ => .resolved (.str "later")]
    (fun _ => .resolved (.num 0)) (.obj 1) hpre rfl hpreA rfl

/-- C7: for every chain (serializers, deserializers, info transformers,
in both the callback and the promise variant), every chain position and
every input value, a handler that signals skip (the `'pass'` sentinel)
leaves the chain's overall result identical to the result of the same
chain with that handler absent. -/
theorem C7_skip_handler_equivalent_to_absent
    (pre post : List ChainHandler) (h : ChainHandler) (hs : SkipsCB h)
    (preA postA : List AsyncHandler) (hA : AsyncHandler) (hsA : SkipsAsync hA)
    (user obj info : JVal) :
    serializeUserRun (pre ++ h :: post) user
      = serializeUserRun (pre ++ post) user ∧
    deserializeUserRun (pre ++ h :: post) obj
      = deserializeUserRun (pre ++ post) obj ∧
    transformAuthInfoRun (pre ++ h :: post) info
      = transformAuthInfoRun (pre ++ post) info ∧
    serializeUserRunAsync (preA ++ hA :: postA) user
      = serializeUserRunAsync (preA ++ postA) user ∧
    deserializeUserRunAsync (preA ++ hA :: postA) obj
      = deserializeUserRunAsync (preA ++ postA) obj ∧
    transformAuthInfoRunAsync (preA ++ hA :: postA) info
      = transformAuthInfoRunAsync (preA ++ postA) info := by
  refine ⟨?_, ?_, ?_, ?_, ?_, ?_⟩
  · exact cbChainLoop_skip_mid rfl hs post pre .noe (JVal.undef)
  · exact cbChainLoop_skip_mid rfl hs post pre .noe (JVal.undef)
  · exact cbChainLoop_skip_mid rfl hs post pre .noe (JVal.undef)
  · exact asyncChainLoop_skip_mid rfl hsA postA preA .noe (JVal.undef)
  · exact asyncChainLoop_skip_mid rfl hsA postA preA .noe (JVal.undef)
  · exact asyncChainLoop_skip_mid rfl hsA postA preA .noe (JVal.undef)

/-- Witness for C7 at a concrete position and inputs. -/
theorem C7_skip_handler_equivalent_to_absent_witness :
    serializeUserRun [fun _ => .call .passSentinel .undef,
        fun _ => .call .noe (.str "id7")] (.obj 3)
      = serializeUserRun [fun _ => .call .noe (.str "id7")] (.obj 3) ∧
    deserializeUserRunAsync [skipAsync, fun _ => .resolved (.obj 9)] (.num 5)
      = deserializeUserRunAsync [fun _ => .resolved (.obj 9)] (.num 5) := by
  have h := C7_skip_handler_equivalent_to_absent
    [] [fun _ => .call .noe (.str "id7")]
    (fun _ => .call .passSentinel .undef) (fun _ => rfl)
    [] [fun _ => .resolved (.obj 9)] skipAsync (fun _ => rfl)
    (.obj 3) (.num 5) (.obj 3)
  exact ⟨h.1, h.2.2.2.2.1⟩

/-- A leading segment of strategies that all signal `fail` is traversed
by `attempt` in order, appending one `Failure` per strategy to the
accumulator and invoking each strategy exactly once. -/
lemma attempt_fail_seg (env : PipelineEnv) (opts : AuthOptions)
    (hasCb multi : Bool) (fsigs : List FailSig) (tail : List StrategySpec) :
    ∀ (acc : List Failure) (inv : Nat) (req : ReqState),
      attempt env opts hasCb multi
          (fsigs.map (fun f => StrategySpec.inst (.fail f)) ++ tail)
          acc inv req
        = attempt env opts hasCb multi tail (acc ++ fsigs.map mkFailure)
            (inv + fsigs.length) req := by
  induction fsigs with
  | nil =>
    intro acc inv req
    simp
  | cons f fs ih =>
    intro acc inv req
    simp only [List.map_cons, List.cons_append, attempt, resolveSpec,
      List.append_eq]
    rw [ih]
    have h2 : inv + 1 + fs.length = inv + (f :: fs).length := by
      simp only [List.length_cons]
      omega
    rw [List.append_assoc, List.singleton_append, h2]

lemma reqLogIn_err_none (sm : Option String) (sessionOpt : Option Bool)
    (req : ReqState) (user : JVal)
    (h : sessionOpt = some false ∨ sm = none) :
    (reqLogIn true sm sessionOpt req user).2 = none := by
  rcases h with h | h <;> subst h
  · simp [reqLogIn]
  · unfold reqLogIn
    rcases sessionOpt.getD true <;> simp

lemma successComplete_isSuccess (opts : AuthOptions) (req : ReqState) :
    isSuccessOutcome (successComplete opts req).1 = true := by
  unfold successComplete
  rcases opts.successReturnToOrRedirect with _ | u
  · rcases opts.successRedirect with _ | u <;> simp [isSuccessOutcome]
  · rcases req.session.returnTo with _ | rt <;> simp [isSuccessOutcome]

/-- Under a working session collaborator and info transform, the success
action concludes with a success outcome. -/
lemma runSuccessAction_isSuccess (env : PipelineEnv) (opts : AuthOptions)
    (hasCb : Bool) (req : ReqState) (user info : JVal)
    (hlogin : opts.session = some false ∨ env.login user = none)
    (htrans :
      (transformAuthInfoRun env.infoTransformers (nullishInfo info)).err
        = none) :
    isSuccessOutcome (runSuccessAction env opts hasCb req user info).1
      = true := by
  unfold runSuccessAction
  cases hasCb with
  | true => simp [isSuccessOutcome]
  | false =>
    simp only [Bool.false_eq_true, if_false]
    rcases hap : opts.assignProperty with _ | p
    · simp only []
      have hlr := reqLogIn_err_none (env.login user) opts.session
        (messageStep opts.successMessage req (nullishInfo info)) user hlogin
      rcases hlr2 : reqLogIn true (env.login user) opts.session
          (messageStep opts.successMessage req (nullishInfo info)) user
        with ⟨req2, e2⟩
      rw [hlr2] at hlr
      simp only [] at hlr
      subst hlr
      by_cases hai : opts.authInfo ≠ some false
      · rcases ht : transformAuthInfoRun env.infoTransformers
            (nullishInfo info) with ⟨te, tv⟩
        rw [ht] at htrans
        simp only [] at htrans
        subst htrans
        simp [hlr2, hai, ht, successComplete_isSuccess]
      · simp [hlr2, hai, successComplete_isSuccess]
    · by_cases hai : opts.authInfo ≠ some false
      · rcases ht : transformAuthInfoRun env.infoTransformers
            (nullishInfo info) with ⟨te, tv⟩
        rw [ht] at htrans
        simp only [] at htrans
        subst htrans
        simp [hai, ht, isSuccessOutcome]
      · simp [hai, isSuccessOutcome]

/-- A minimal pipeline environment with working collaborators: empty
registry, session persistence that succeeds, no info transformers. -/
def demoEnv : PipelineEnv :=
  { registry := [], login := fun _ => none, infoTransformers := [],
    req := {} }

/-- C1: for every specifier list of length N whose strategies 1..N-1
signal `fail` and whose strategy N signals `success` (the session and
info-transform collaborators behaving), the per-request handler yields
the success outcome — callback invocation, or login/redirect/next — and
the failure accumulator holds exactly N-1 `Failure` records, in strategy
order. -/
theorem C1_fail_chain_then_success (env : PipelineEnv) (opts : AuthOptions)
    (hasCb : Bool) (fsigs : List FailSig) (user info : JVal)
    (hlogin : opts.session = some false ∨ env.login user = none)
    (htrans :
      (transformAuthInfoRun env.infoTransformers (nullishInfo info)).err
        = none) :
    isSuccessOutcome (runPipeline env opts hasCb true
        (fsigs.map (fun f => StrategySpec.inst (.fail f))
          ++ [StrategySpec.inst (.success user info)])).outcome = true ∧
    (runPipeline env opts hasCb true
        (fsigs.map (fun f => StrategySpec.inst (.fail f))
          ++ [StrategySpec.inst (.success user info)])).failures
      = fsigs.map mkFailure ∧
    (runPipeline env opts hasCb true
        (fsigs.map (fun f => StrategySpec.inst (.fail f))
          ++ [StrategySpec.inst (.success user info)])).failures.length
      = fsigs.length := by
  have hrw : runPipeline env opts hasCb true
      (fsigs.map (fun f => StrategySpec.inst (.fail f))
        ++ [StrategySpec.inst (.success user info)])
      = ⟨(runSuccessAction env opts hasCb env.req user info).1,
         fsigs.map mkFailure, fsigs.length + 1,
         (runSuccessAction env opts hasCb env.req user info).2⟩ := by
    unfold runPipeline
    rw [attempt_fail_seg]
    simp [attempt, resolveSpec]
  rw [hrw]
  exact ⟨runSuccessAction_isSuccess env opts hasCb env.req user info
      hlogin htrans, rfl, by simp⟩

/-- Witness for C1: two strategies, the first failing with a 401
challenge, the second succeeding; sessions enabled, persistence
succeeding. -/
theorem C1_fail_chain_then_success_witness :
    (({} : AuthOptions).session = some false
        ∨ demoEnv.login (.obj 1) = none) ∧
    (transformAuthInfoRun demoEnv.infoTransformers
        (nullishInfo .undef)).err = none ∧
    isSuccessOutcome (runPipeline demoEnv {} false true
        [StrategySpec.inst (.fail (.ch "Basic realm=x" (some 401))),
         StrategySpec.inst (.success (.obj 1) .undef)]).outcome = true ∧
    (runPipeline demoEnv {} false true
        [StrategySpec.inst (.fail (.ch "Basic realm=x" (some 401))),
         StrategySpec.inst (.success (.obj 1) .undef)]).failures
      = [⟨some "Basic realm=x", some 401⟩] := by
  have hl : ({} : AuthOptions).session = some false
      ∨ demoEnv.login (.obj 1) = none := Or.inr rfl
  have ht : (transformAuthInfoRun demoEnv.infoTransformers
      (nullishInfo .undef)).err = none := rfl
  have h := C1_fail_chain_then_success demoEnv {} false
    [.ch "Basic realm=x" (some 401)] (.obj 1) .undef hl ht
  exact ⟨hl, ht, h.1, h.2.1⟩

/-- C3: a `redirect(url, status)` signal from strategy k immediately
produces a response with `Location = url`, status defaulting to 302 when
not given, and `Content-Length` set to `0`; strategies k+1..N are never
invoked (`invoked = k`) and the accumulated failures are carried but not
consulted (the result does not depend on their contents). -/
theorem C3_redirect_short_circuits (env : PipelineEnv) (opts : AuthOptions)
    (hasCb : Bool) (fsigs : List FailSig) (post : List StrategySpec)
    (url : String) (st : Option Nat)
    (hst : st = none ∨ ∃ n, st = some n ∧ n ≠ 0) :
    runPipeline env opts hasCb true
        (fsigs.map (fun f => StrategySpec.inst (.fail f))
          ++ StrategySpec.inst (.redirect url st) :: post)
      = ⟨.strategyRedirect url (st.getD 302) "0",
         fsigs.map mkFailure, fsigs.length + 1, env.req⟩ := by
  unfold runPipeline
  rw [attempt_fail_seg]
  rcases hst with h | ⟨n, h, hn⟩ <;> subst h
  · simp [attempt, resolveSpec]
  · simp [attempt, resolveSpec, hn]

/-- Witness for C3: one failing strategy, then a redirect with no
status, then a further strategy that must not run. -/
theorem C3_redirect_short_circuits_witness :
    ((none : Option Nat) = none
        ∨ ∃ n, (none : Option Nat) = some n ∧ n ≠ 0) ∧
    runPipeline demoEnv {} false true
        [StrategySpec.inst (.fail (.st 401)),
         StrategySpec.inst (.redirect "https://idp.example" none),
         StrategySpec.inst .pass]
      = ⟨.strategyRedirect "https://idp.example" 302 "0",
         [⟨none, some 401⟩], 2, demoEnv.req⟩ := by
  have h := C3_redirect_short_circuits demoEnv {} false [.st 401]
    [StrategySpec.inst .pass] "https://idp.example" none (Or.inl rfl)
  exact ⟨Or.inl rfl, h⟩

/-- On a nonempty failure list, the "last status field" read agrees when
the head is prepended. -/
lemma lastStatus_cons_elim (v : Option Nat) (f : Failure) (t : List Failure)
    (r : Option Nat) (hv : f.status = v) :
    t.getLast?.elim v Failure.status
      = (f :: t).getLast?.elim r Failure.status := by
  cases t with
  | nil => simp [← hv]
  | cons g t2 =>
    rw [List.getLast?_cons_cons]
    rcases hg : (g :: t2).getLast? with _ | x
    · rw [List.getLast?_eq_none_iff] at hg
      exact absurd hg (by simp)
    · rfl

/-- Characterisation of the `rstatus ||= status` fold: a truthy
accumulator is kept; otherwise the result is the first nonzero status
when one exists, else the last failure's status field, else the
accumulator. -/
lemma rstatusFold_go :
    ∀ (fs : List Failure) (r : Option Nat),
      fs.foldl (fun r f => if statusTruthy r then r else f.status) r
        = if statusTruthy r then r
          else ((fs.filterMap Failure.status).find? (fun n => n != 0)).elim
              (fs.getLast?.elim r Failure.status) some := by
  intro fs
  induction fs with
  | nil =>
    intro r
    cases h : statusTruthy r <;> simp [h]
  | cons f t ih =>
    intro r
    simp only [List.foldl_cons]
    cases hr : statusTruthy r
    case true => simp [ih r, hr]
    case false =>
      simp only [Bool.false_eq_true, if_false]
      rw [ih f.status]
      cases hs : f.status with
      | none =>
        rw [List.filterMap_cons_none (f := Failure.status) hs]
        simp only [statusTruthy, Bool.false_eq_true, if_false]
        rcases hfind :
            (t.filterMap Failure.status).find? (fun n => n != 0) with _ | n
        · simp only [Option.elim_none]
          exact lastStatus_cons_elim none f t r hs
        · rfl
      | some k =>
        rw [List.filterMap_cons_some (f := Failure.status) hs]
        by_cases hk : (k != 0) = true
        · rw [List.find?_cons_of_pos (p := fun n => n != 0) _ hk]
          simp [statusTruthy, hk]
        · have hk0 : k = 0 := by simpa using hk
          subst hk0
          rw [List.find?_cons_of_neg (p := fun n => n != 0) _ hk]
          rw [if_neg (by decide)]
          rcases hfind :
              (t.filterMap Failure.status).find? (fun n => n != 0) with _ | n
          · simp only [Option.elim_none]
            exact lastStatus_cons_elim (some 0) f t r hs
          · rfl

/-- Spec-side definition, following C2's words: "the first non-empty
per-Failure status, defaulting to 401 when none is set". -/
def claimedAggregateStatus (fs : List Failure) : Nat :=
  ((fs.filterMap Failure.status).head?).getD 401

/-- The aggregate status the code actually computes, in closed form: the
first nonzero per-`Failure` status when one exists; otherwise the
literal `0` when the last failure's status is `0` (a falsy status is
or-assigned over), and `401` when no status remains set. -/
def amendedStatus (fs : List Failure) : Nat :=
  match (fs.filterMap Failure.status).find? (fun n => n != 0) with
  | some n => n
  | none => if fs.getLast?.bind Failure.status = some 0 then 0 else 401

/-- `res.statusCode = rstatus ?? 401` agrees with `amendedStatus`. -/
lemma statusCode_eq_amended (fs : List Failure) :
    (rstatusFold fs).getD 401 = amendedStatus fs := by
  unfold rstatusFold amendedStatus
  rw [rstatusFold_go fs none]
  simp only [statusTruthy, Bool.false_eq_true, if_false]
  cases hfind : (fs.filterMap Failure.status).find? (fun n => n != 0) with
  | some n => simp
  | none =>
    simp only [Option.elim_none]
    cases hl : fs.getLast? with
    | none => simp
    | some f =>
      simp only [Option.elim_some, Option.some_bind]
      by_cases h0 : f.status = some 0
      · simp [h0]
      · rw [if_neg h0]
        have hnone : f.status = none := by
          cases hs : f.status with
          | none => rfl
          | some k =>
            exfalso
            have hmem : k ∈ fs.filterMap Failure.status :=
              List.mem_filterMap.mpr ⟨f, List.mem_of_mem_getLast? (by
                rw [hl]; rfl), hs⟩
            have hk := List.find?_eq_none.mp hfind k hmem
            simp only [bne_iff_ne, ne_eq, not_not] at hk
            subst hk
            exact h0 hs
        rw [hnone]
        rfl

/-- Registry for C2's end-to-end example: `"basic"` fails with
`fail("Basic realm=x", 401)` and `"bearer"` with `fail("Bearer", 401)`;
the other collaborators behave. -/
def basicBearerEnv : PipelineEnv :=
  { registry := [("basic", .fail (.ch "Basic realm=x" (some 401))),
                 ("bearer", .fail (.ch "Bearer" (some 401)))],
    login := fun _ => none, infoTransformers := [], req := {} }

/-- C2 counterexample: with failures `fail(0)` then `fail(500)` (no
callback, no `failureRedirect`), the response status the code computes
is 500, while the first set ("non-empty") per-Failure status is 0 —
`rstatus ||= status` skips a falsy status.  And with the single failure
`fail(0)` the code responds with status 0, not the 401 default — so the
claim's aggregate-status rule fails whether "non-empty" is read as
"set" (first input) or as "truthy" (second input, where no status would
count as non-empty yet 401 is not produced). -/
theorem C2_counterexample :
    (runPipeline basicBearerEnv {} false true
        [StrategySpec.inst (.fail (.st 0)),
         StrategySpec.inst (.fail (.st 500))]).outcome
      = .failResponse 500 [] ∧
    claimedAggregateStatus [mkFailure (.st 0), mkFailure (.st 500)] = 0 ∧
    (500 : Nat) ≠ 0 ∧
    (runPipeline basicBearerEnv {} false true
        [StrategySpec.inst (.fail (.st 0))]).outcome
      = .failResponse 0 [] ∧
    (0 : Nat) ≠ 401 := by
  refine ⟨rfl, rfl, by decide, rfl, by decide⟩

/-- C2 (amended): when every strategy signals `fail` and neither a
callback nor `failureRedirect` (nor `failWithError`) is in effect, the
response status equals the first *nonzero* per-Failure status,
defaulting to 401 when no failure carries a nonzero status — except
that a trailing literal status 0 (with no nonzero status before it)
yields status 0; the challenge list preserves strategy order; and when
the resulting status is 401 with at least one string challenge, the
`WWW-Authenticate` header lists all challenges in order — in particular
specifier `["basic","bearer"]` with `fail("Basic realm=x", 401)` then
`fail("Bearer", 401)` yields status 401 and header
`WWW-Authenticate: Basic realm=x, Bearer`. -/
theorem C2_all_fail_aggregate (env : PipelineEnv) (opts : AuthOptions)
    (fsigs : List FailSig)
    (hfr : opts.failureRedirect = none) (hfwe : opts.failWithError = false) :
    (runPipeline env opts false true
        (fsigs.map (fun f => StrategySpec.inst (.fail f)))).outcome
      = .failResponse (amendedStatus (fsigs.map mkFailure))
          (if amendedStatus (fsigs.map mkFailure) = 401
              ∧ challengeList (fsigs.map mkFailure) ≠ []
            then challengeList (fsigs.map mkFailure) else []) ∧
    (authenticateMiddleware basicBearerEnv {} false
        (.inr [.byName "basic", .byName "bearer"])).outcome
      = .failResponse 401 ["Basic realm=x", "Bearer"] ∧
    String.intercalate ", " ["Basic realm=x", "Bearer"]
      = "Basic realm=x, Bearer" := by
  refine ⟨?_, rfl, rfl⟩
  have hrw : runPipeline env opts false true
      (fsigs.map (fun f => StrategySpec.inst (.fail f)))
      = allFailedRun opts false true (fsigs.map mkFailure) fsigs.length
          env.req := by
    unfold runPipeline
    rw [← List.append_nil (fsigs.map (fun f => StrategySpec.inst
      (StrategyAction.fail f))), attempt_fail_seg]
    simp [attempt]
  rw [hrw]
  unfold allFailedRun
  simp only [hfr, hfwe, Bool.false_eq_true, if_false]
  rw [statusCode_eq_amended]

/-- Witness for C2's amended theorem at a concrete input: two failures
with challenges and 401 statuses. -/
theorem C2_all_fail_aggregate_witness :
    (({} : AuthOptions).failureRedirect = none
        ∧ ({} : AuthOptions).failWithError = false) ∧
    (runPipeline basicBearerEnv {} false true
        ([FailSig.ch "Basic realm=x" (some 401),
          FailSig.ch "Bearer" (some 401)].map
          (fun f => StrategySpec.inst (.fail f)))).outcome
      = .failResponse 401 ["Basic realm=x", "Bearer"] := by
  have h := C2_all_fail_aggregate basicBearerEnv {}
    [.ch "Basic realm=x" (some 401), .ch "Bearer" (some 401)] rfl rfl
  refine ⟨⟨rfl, rfl⟩, ?_⟩
  rw [h.1]
  rfl

/-! ## Session-restoration strategy -/

/-- `'Login sessions require session support. ...'` -/
def sessionSupportMsg : String :=
  "Login sessions require session support. Did you forget to use `express-session` middleware?"

/-- Which action the session-restoration strategy concludes with. -/
inductive StrategyOutcome where
  | successOut (u : JVal)
  | failOut (f : FailSig)
  | redirectOut (url : String)
  | passOut
  | errorOut (e : String)
deriving DecidableEq, Repr

/-- `pass` or `error` (the only actions the session strategy uses). -/
def isPassOrError : StrategyOutcome → Bool
  | .passOut => true
  | .errorOut _ => true
  | _ => false

/-- The request as seen by the callback-variant `SessionStrategy`:
whether `req.session` exists, the `req.session[key]` object with its
stored `user` value (`none` meaning the key object is absent/falsy,
`some .undef` an object without a user), and the current-user slot
(`req[_userProperty ?? 'user']`). -/
structure SessionReq where
  sessionPresent : Bool := true
  passportObj : Option JVal := none
  userSlot : JVal := (JVal.undef)
deriving DecidableEq, Repr

/-- `SessionStrategy.authenticate` (callback variant,
`src/unnamed/part_000` lines 102-141): `error` when `req.session` is
missing; read the stored serialized user; when present (truthy, or the
literal `0`) run it through the deserializer chain — a deserializer
error is signalled via `error`; a falsy deserialized user deletes the
stale `session[key].user`; a truthy one is assigned to the current-user
slot — and `pass`; when no stored user, just `pass`. -/
def sessionAuthenticate (ds : List ChainHandler) (req : SessionReq) :
    StrategyOutcome × SessionReq :=
  if ¬req.sessionPresent then (.errorOut sessionSupportMsg, req)
  else
    let sessionUser : JVal :=
      match req.passportObj with
      | some u => u
      | none => (JVal.undef)
    if truthy sessionUser ∨ sessionUser = .num 0 then
      let r := deserializeUserRun ds sessionUser
      match r.err with
      | some e => (.errorOut e, req)
      | none =>
        if ¬truthy r.val then
          (.passOut,
            { req with passportObj := req.passportObj.map (fun _ => .undef) })
        else (.passOut, { req with userSlot := r.val })
    else (.passOut, req)

/-- The iron-session state used by the promise-variant strategy; `saved`
records whether `session.save()` was called. -/
structure IronSession where
  user : JVal := (JVal.undef)
  saved : Bool := false
deriving DecidableEq, Repr

/-- `SessionStrategy.authenticate` (promise variant,
`src/strategies/session.ts` 44-62): a falsy stored user passes;
otherwise deserialize — a falsy deserialized user deletes
`session.user` and saves — and pass, a deserializer rejection becoming
`error`.  (This variant has no request object; restored state lives in
the session itself.) -/
def sessionAuthenticateAsync (dsr : JVal → Except String JVal)
    (s : IronSession) : StrategyOutcome × IronSession :=
  if ¬truthy s.user then (.passOut, s)
  else
    match dsr s.user with
    | .error e => (.errorOut e, s)
    | .ok user =>
      if ¬truthy user then (.passOut, { s with user := .undef, saved := true })
      else (.passOut, s)

lemma sessionAuthenticate_present (ds : List ChainHandler) (req : SessionReq)
    (su : JVal) (hs : req.sessionPresent = true)
    (hobj : req.passportObj = some su)
    (hpresent : truthy su = true ∨ su = .num 0) :
    sessionAuthenticate ds req
      = match (deserializeUserRun ds su).err with
        | some e => (.errorOut e, req)
        | none =>
          if ¬truthy (deserializeUserRun ds su).val then
            (.passOut, { req with passportObj := some .undef })
          else (.passOut, { req with userSlot := (deserializeUserRun ds su).val }) := by
  unfold sessionAuthenticate
  rw [hs]
  simp only [hobj]
  rw [if_neg (by simp)]
  rw [if_pos (by
    rcases hpresent with h | h
    · exact Or.inl h
    · exact Or.inr h)]
  rfl

lemma sessionAuthenticate_passOrError (ds : List ChainHandler)
    (req : SessionReq) :
    isPassOrError (sessionAuthenticate ds req).1 = true := by
  unfold sessionAuthenticate
  dsimp only
  repeat' split
  all_goals rfl

lemma sessionAuthenticateAsync_passOrError
    (dsr : JVal → Except String JVal) (s : IronSession) :
    isPassOrError (sessionAuthenticateAsync dsr s).1 = true := by
  unfold sessionAuthenticateAsync
  split
  · rfl
  · split
    · rfl
    · split <;> rfl

/-- C4: whenever the session holds a stored serialized user, the
session-restoration strategy runs that value through the deserializer
chain; a truthy deserialized user is assigned to the request's
current-user slot and `pass` is signalled; a falsy ("no such user")
result clears the stale user from the session before passing; a
deserializer error is signalled via `error`; and the strategy never
signals `success` or `fail` (it only ever passes or errors) — in both
the callback variant and the promise variant. -/
theorem C4_session_restoration (ds : List ChainHandler) (req : SessionReq)
    (su : JVal) (hs : req.sessionPresent = true)
    (hobj : req.passportObj = some su)
    (hpresent : truthy su = true ∨ su = .num 0) :
    ((deserializeUserRun ds su).err = none →
      (truthy (deserializeUserRun ds su).val = true →
        sessionAuthenticate ds req
          = (.passOut,
              { req with userSlot := (deserializeUserRun ds su).val })) ∧
      (truthy (deserializeUserRun ds su).val = false →
        sessionAuthenticate ds req
          = (.passOut, { req with passportObj := some .undef }))) ∧
    (∀ e, (deserializeUserRun ds su).err = some e →
      sessionAuthenticate ds req = (.errorOut e, req)) ∧
    (∀ (ds2 : List ChainHandler) (req2 : SessionReq),
      isPassOrError (sessionAuthenticate ds2 req2).1 = true) ∧
    (∀ (dsr : JVal → Except String JVal) (s : IronSession),
      truthy s.user = true →
        (∀ e, dsr s.user = .error e →
          sessionAuthenticateAsync dsr s = (.errorOut e, s)) ∧
        (∀ u, dsr s.user = .ok u → truthy u = false →
          sessionAuthenticateAsync dsr s
            = (.passOut, { s with user := .undef, saved := true })) ∧
        (∀ u, dsr s.user = .ok u → truthy u = true →
          sessionAuthenticateAsync dsr s = (.passOut, s))) ∧
    (∀ (dsr : JVal → Except String JVal) (s : IronSession),
      isPassOrError (sessionAuthenticateAsync dsr s).1 = true) := by
  refine ⟨?_, ?_, fun ds2 req2 => sessionAuthenticate_passOrError ds2 req2,
    ?_, fun dsr s => sessionAuthenticateAsync_passOrError dsr s⟩
  · intro hne
    constructor
    · intro htr
      rw [sessionAuthenticate_present ds req su hs hobj hpresent]
      rcases hd : deserializeUserRun ds su with ⟨de, dv⟩
      rw [hd] at hne htr
      simp only [] at hne htr
      subst hne
      simp [htr]
    · intro hfalsy
      rw [sessionAuthenticate_present ds req su hs hobj hpresent]
      rcases hd : deserializeUserRun ds su with ⟨de, dv⟩
      rw [hd] at hne hfalsy
      simp only [] at hne hfalsy
      subst hne
      simp [hfalsy]
  · intro e he
    rw [sessionAuthenticate_present ds req su hs hobj hpresent]
    rw [he]
  · intro dsr s htr
    refine ⟨?_, ?_, ?_⟩
    · intro e he
      unfold sessionAuthenticateAsync
      rw [if_neg (by simp [htr]), he]
    · intro u hu hfalsy
      unfold sessionAuthenticateAsync
      rw [if_neg (by simp [htr]), hu]
      simp [hfalsy]
    · intro u hu htru
      unfold sessionAuthenticateAsync
      rw [if_neg (by simp [htr]), hu]
      simp [htru]

/-- Witness for C4: a one-deserializer chain yielding the user object
`obj 5` from the stored serialized user `7`. -/
theorem C4_session_restoration_witness :
    (⟨true, some (.num 7), .undef⟩ : SessionReq).sessionPresent = true ∧
    (⟨true, some (.num 7), .undef⟩ : SessionReq).passportObj
      = some (.num 7) ∧
    (truthy (.num 7) = true ∨ (JVal.num 7) = .num 0) ∧
    sessionAuthenticate [fun _ => .call .noe (.obj 5)]
        ⟨true, some (.num 7), .undef⟩
      = (.passOut, ⟨true, some (.num 7), .obj 5⟩) := by
  have h := C4_session_restoration [fun _ => .call .noe (.obj 5)]
    ⟨true, some (.num 7), .undef⟩ (.num 7) rfl rfl (Or.inl rfl)
  exact ⟨rfl, rfl, Or.inl rfl, (h.1 rfl).1 rfl⟩

/-! ## Session manager -/

/-- The collaborator behaviours one `SessionManager.logIn` call can
encounter. -/
structure SMEnv where
  sessionPresent : Bool := true
  regenerateResult : Option String := none
  serializeResult : DoneRes := ⟨none, .undef⟩
  saveResult : Option String := none
deriving DecidableEq, Repr

/-- What one call to `SessionManager.logIn` does: the arguments
actually delivered to the caller's callback, and whether evaluation
crashed with a TypeError. -/
structure SMRun where
  cbCalls : List (Option String)
  crashed : Bool
deriving DecidableEq, Repr

/-- `SessionManager.logIn` (`src/sessionmanager.ts` 41-92), including
the overload-handling slip at lines 47-51: in the 3-argument form
`logIn(req, user, cb)` the code runs `cb = options as ErrorCallback` —
but the local `options` is still undefined at that point, so the
caller's callback is dropped and every later `cb?.(...)` is a no-op
(`options` is then set to `{}`).  In the 4-argument form the callback
parameter is kept, but the local `options` is never assigned, so the
success path's `options.keepSessionInfo` read throws a TypeError (whose
further propagation through the serializer's try/catch is outside this
model). -/
def smLogIn (env : SMEnv) (thirdArgIsCallback : Bool) : SMRun :=
  let cbPresent : Bool := if thirdArgIsCallback then false else true
  let optionsLocal : Option Bool :=
    if thirdArgIsCallback then some false else none
  let deliver : Option String → SMRun := fun e =>
    ⟨if cbPresent then [e] else [], false⟩
  if ¬env.sessionPresent then deliver (some sessionSupportMsg)
  else
    match env.regenerateResult with
    | some e => deliver (some e)
    | none =>
      match env.serializeResult.err with
      | some e => deliver (some e)
      | none =>
        match optionsLocal with
        | none => ⟨[], true⟩
        | some _keep =>
          match env.saveResult with
          | some e => deliver (some e)
          | none => deliver none

/-- C8 failing input: `logIn(req, user, cb)` — the 3-argument form —
with `session.regenerate` (resp. `session.save`) failing: the error is
delivered to no callback at all, because `cb = options as ErrorCallback`
dropped the caller's callback; the same calls in the 4-argument form do
deliver the error.  This contradicts the claim that such failures are
propagated to the caller, never swallowed. -/
theorem C8_login_three_arg_swallows_error :
    smLogIn { regenerateResult := some "regenerate failed" } true
      = ⟨[], false⟩ ∧
    smLogIn { saveResult := some "save failed" } true = ⟨[], false⟩ ∧
    smLogIn { regenerateResult := some "regenerate failed" } false
      = ⟨[some "regenerate failed"], false⟩ := by
  exact ⟨rfl, rfl, rfl⟩

/-- Operations performed on the session collaborator, in order; the
`saveOp` flag records whether a user was still present in the state
being saved. -/
inductive SessOp where
  | deleteUserOp
  | saveOp (userPresentAtSave : Bool)
  | regenerateOp
  | destroyOp
deriving DecidableEq, Repr

/-- Collaborator behaviours for one `logOut` call. -/
structure LogOutEnv where
  sessionPresent : Bool := true
  hasPassportObj : Bool := true
  saveResult : Option String := none
  regenerateResult : Option String := none
deriving DecidableEq, Repr

/-- `SessionManager.logOut` (`src/sessionmanager.ts` 94-134) as the
trace of session operations it performs, with the argument the callback
receives.  The user key is deleted synchronously (when `session[key]`
exists), then the session is saved — persisting a user-free state — and
only on successful save is `regenerate` invoked. -/
def smLogOutTrace (env : LogOutEnv) : List SessOp × Option String :=
  if ¬env.sessionPresent then ([], some sessionSupportMsg)
  else
    let tr0 : List SessOp :=
      if env.hasPassportObj then [.deleteUserOp] else []
    match env.saveResult with
    | some e => (tr0 ++ [.saveOp false], some e)
    | none =>
      match env.regenerateResult with
      | some e => (tr0 ++ [.saveOp false, .regenerateOp], some e)
      | none => (tr0 ++ [.saveOp false, .regenerateOp], none)

/-- `SessionManager.logOut` (promise variant, `src/unnamed/part_001`
lines 22-33): delete the user, `await session.save()`, then
`session.destroy()` — a save rejection propagates and `destroy` is not
reached. -/
def smLogOutAsyncTrace (saveResult : Option String) :
    List SessOp × Option String :=
  match saveResult with
  | some e => ([.deleteUserOp, .saveOp false], some e)
  | none => ([.deleteUserOp, .saveOp false, .destroyOp], none)

/-- Scanner: every `regenerateOp`/`destroyOp` in the trace is preceded
by a save of user-free state. -/
def savedBeforeScan : Bool → List SessOp → Bool
  | _, [] => true
  | _, .saveOp false :: t => savedBeforeScan true t
  | seen, .regenerateOp :: t => seen && savedBeforeScan seen t
  | seen, .destroyOp :: t => seen && savedBeforeScan seen t
  | seen, .deleteUserOp :: t => savedBeforeScan seen t
  | seen, .saveOp true :: t => savedBeforeScan seen t

/-- A trace accepted by `savedBeforeScan` has a user-free save at a
strictly earlier index than every regenerate/destroy. -/
lemma savedBeforeScan_bridge :
    ∀ (tr : List SessOp) (seen : Bool), savedBeforeScan seen tr = true →
      ∀ (i : Nat) (op : SessOp),
        (op = .regenerateOp ∨ op = .destroyOp) → tr[i]? = some op →
        seen = true ∨ ∃ j, j < i ∧ tr[j]? = some (.saveOp false) := by
  intro tr
  induction tr with
  | nil =>
    intro seen _ i op _ hi
    simp at hi
  | cons h t ih =>
    intro seen hscan i op hop hi
    cases i with
    | zero =>
      simp only [List.getElem?_cons_zero, Option.some_inj] at hi
      subst hi
      rcases hop with h1 | h1 <;> subst h1 <;>
        · left
          cases h2 : seen with
          | true => rfl
          | false =>
            rw [h2] at hscan
            simp [savedBeforeScan] at hscan
    | succ i =>
      simp only [List.getElem?_cons_succ] at hi
      cases h with
      | deleteUserOp =>
        rcases ih seen (by simpa [savedBeforeScan] using hscan) i op hop hi
          with hl | ⟨j, hj, hjt⟩
        · exact Or.inl hl
        · exact Or.inr ⟨j + 1, Nat.succ_lt_succ hj, by simpa using hjt⟩
      | regenerateOp =>
        have hscan2 : seen = true ∧ savedBeforeScan seen t = true := by
          simpa [savedBeforeScan, Bool.and_eq_true] using hscan
        rcases ih seen hscan2.2 i op hop hi with hl | ⟨j, hj, hjt⟩
        · exact Or.inl hl
        · exact Or.inr ⟨j + 1, Nat.succ_lt_succ hj, by simpa using hjt⟩
      | destroyOp =>
        have hscan2 : seen = true ∧ savedBeforeScan seen t = true := by
          simpa [savedBeforeScan, Bool.and_eq_true] using hscan
        rcases ih seen hscan2.2 i op hop hi with hl | ⟨j, hj, hjt⟩
        · exact Or.inl hl
        · exact Or.inr ⟨j + 1, Nat.succ_lt_succ hj, by simpa using hjt⟩
      | saveOp b =>
        cases b with
        | false => exact Or.inr ⟨0, Nat.succ_pos i, by simp⟩
        | true =>
          rcases ih seen (by simpa [savedBeforeScan] using hscan) i op hop hi
            with hl | ⟨j, hj, hjt⟩
          · exact Or.inl hl
          · exact Or.inr ⟨j + 1, Nat.succ_lt_succ hj, by simpa using hjt⟩

lemma smLogOutTrace_scan (env : LogOutEnv) :
    savedBeforeScan false (smLogOutTrace env).1 = true := by
  unfold smLogOutTrace
  rcases env with ⟨sp, hp, sr, rr⟩
  cases sp <;> cases hp <;> rcases sr with _ | e <;> rcases rr with _ | e2 <;>
    rfl

lemma smLogOutAsyncTrace_scan (saveResult : Option String) :
    savedBeforeScan false (smLogOutAsyncTrace saveResult).1 = true := by
  rcases saveResult with _ | e <;> rfl

/-- C9: in every execution of `logOut` (both variants), any
`regenerate`/`destroy` of the session identifier is preceded, at a
strictly earlier position in the operation trace, by a `save` of a
state with the user already removed, and that save completed
(`regenerate`/`destroy` occur only when `save` did not fail). -/
theorem C9_logout_removal_durable_first (env : LogOutEnv) :
    (∀ i : Nat, (smLogOutTrace env).1[i]? = some SessOp.regenerateOp →
      ∃ j : Nat, j < i ∧ (smLogOutTrace env).1[j]?
        = some (SessOp.saveOp false)) ∧
    (SessOp.regenerateOp ∈ (smLogOutTrace env).1 → env.saveResult = none) ∧
    (∀ saveRes : Option String,
      (∀ i : Nat, (smLogOutAsyncTrace saveRes).1[i]? = some SessOp.destroyOp →
        ∃ j : Nat, j < i ∧ (smLogOutAsyncTrace saveRes).1[j]?
          = some (SessOp.saveOp false)) ∧
      (SessOp.destroyOp ∈ (smLogOutAsyncTrace saveRes).1 →
        saveRes = none)) := by
  refine ⟨?_, ?_, ?_⟩
  · intro i hi
    rcases savedBeforeScan_bridge (smLogOutTrace env).1 false
        (smLogOutTrace_scan env) i .regenerateOp (Or.inl rfl) hi
      with hl | hr
    · exact absurd hl (by simp)
    · exact hr
  · intro hmem
    rcases env with ⟨sp, hp, sr, rr⟩
    rcases sr with _ | e
    · rfl
    · exfalso
      cases sp <;> cases hp <;> rcases rr with _ | e2 <;>
        simp [smLogOutTrace] at hmem
  · intro saveRes
    constructor
    · intro i hi
      rcases savedBeforeScan_bridge (smLogOutAsyncTrace saveRes).1 false
          (smLogOutAsyncTrace_scan saveRes) i .destroyOp (Or.inr rfl) hi
        with hl | hr
      · exact absurd hl (by simp)
      · exact hr
    · intro hmem
      rcases saveRes with _ | e
      · rfl
      · exfalso
        simp [smLogOutAsyncTrace] at hmem

/-- Witness for C9: with all collaborators succeeding, the callback
variant's trace has `regenerate` at index 2 preceded by the user-free
save at index 1. -/
theorem C9_logout_removal_durable_first_witness :
    (smLogOutTrace {}).1[2]? = some SessOp.regenerateOp ∧
    ∃ j : Nat, j < 2 ∧ (smLogOutTrace {}).1[j]?
      = some (SessOp.saveOp false) := by
  exact ⟨rfl, (C9_logout_removal_durable_first {}).1 2 rfl⟩

/-- C10: when `req.logIn`'s session persistence fails, the current-user
property is reset to `null` by the time the error is delivered to the
callback — so `isAuthenticated()` is `false` after a failed login — and
when persistence succeeds the property holds the logged-in user. -/
theorem C10_login_failure_resets_user (smResult : Option String)
    (sessionOpt : Option Bool) (req : ReqState) (user : JVal)
    (hs : sessionOpt.getD true = true) :
    (∀ e, smResult = some e →
      (reqLogIn true smResult sessionOpt req user).1.userSlot = .jnull ∧
      (reqLogIn true smResult sessionOpt req user).2 = some e ∧
      isAuthenticatedReq (reqLogIn true smResult sessionOpt req user).1
        = false) ∧
    (smResult = none →
      (reqLogIn true smResult sessionOpt req user).1.userSlot = user ∧
      (reqLogIn true smResult sessionOpt req user).2 = none) := by
  constructor
  · intro e he
    subst he
    unfold reqLogIn
    simp [hs, isAuthenticatedReq, truthy]
  · intro he
    subst he
    unfold reqLogIn
    simp [hs]

/-- Witness for C10: persistence failing with "db down", default session
options. -/
theorem C10_login_failure_resets_user_witness :
    ((none : Option Bool).getD true = true) ∧
    (reqLogIn true (some "db down") none {} (.obj 1)).1.userSlot
      = .jnull ∧
    isAuthenticatedReq (reqLogIn true (some "db down") none {} (.obj 1)).1
      = false ∧
    (reqLogIn true none none {} (.obj 1)).1.userSlot = .obj 1 := by
  have h1 := (C10_login_failure_resets_user (some "db down") none {}
    (.obj 1) rfl).1 "db down" rfl
  have h2 := (C10_login_failure_resets_user none none {} (.obj 1) rfl).2 rfl
  exact ⟨rfl, h1.1, h1.2.2, h2.1⟩

end NextPassport
